import Mathlib

/-!
Verification of the wynex trading bot's risk/strategy core against its
natural-language specification.

The development shallowly embeds the Python modules
`adaptive_risk_management.py`, `strategy_engine.py`,
`advanced_pattern_recognition.py` into Lean 4:

* Python floats are modelled as exact rationals (`ℚ`).  `round(x, 2)` is
  modelled by `round2` below.
* The mutable `AdaptiveRiskManager` object is modelled as an explicit
  `RiskState` record threaded through the methods.
* `datetime.now().strftime('%Y-%m-%d')` is abstracted as an opaque `String`
  date key supplied as a parameter.
* Fallible numpy/pandas operations (e.g. `np.max` of an empty slice, which
  raises `ValueError`) are modelled with `Option`: `none` is a raised
  exception / a NaN entry, as noted at each definition.
-/

namespace Wynex

/-- Model of Python's `round(x, 2)`.  Mathlib's `round` rounds half away
from zero upward (`⌊x + 1/2⌋`) while Python rounds half to even; the two
agree except at exact half-cent ties, on which no property below depends. -/
def round2 (x : ℚ) : ℚ := (round (x * 100) : ℤ) / 100

/-- One recorded trade (`trade_result` dict of
`AdaptiveRiskManager.record_trade`).  The `timestamp` field is abstracted
to its `'%Y-%m-%d'`-formatted date string, which is all `record_trade`
reads from it besides storing the record. -/
structure Trade where
  win : Bool
  profit_loss : ℚ
  date : String
  deriving Repr, DecidableEq

/-- One value of the `daily_results` dict of `AdaptiveRiskManager`. -/
structure DailyResult where
  trades : ℕ
  wins : ℕ
  losses : ℕ
  profit_loss : ℚ
  deriving Repr, DecidableEq

/-- The mutable state of an `AdaptiveRiskManager` instance.  The
`daily_results` dict is modelled as an association list keyed by date
string. -/
structure RiskState where
  initial_balance : ℚ
  current_balance : ℚ
  risk_tolerance : ℚ
  trades : List Trade
  win_streak : ℕ
  loss_streak : ℕ
  daily_results : List (String × DailyResult)
  deriving Repr, DecidableEq

/-- `AdaptiveRiskManager.base_risk_percent` (2% risk per trade baseline). -/
def base_risk_percent : ℚ := 2 / 100

/-- `AdaptiveRiskManager.max_risk_percent` (5% maximum risk per trade). -/
def max_risk_percent : ℚ := 5 / 100

/-- `AdaptiveRiskManager.min_risk_percent` (0.5% minimum risk per trade). -/
def min_risk_percent : ℚ := 5 / 1000

/-- `AdaptiveRiskManager.__init__(initial_balance, risk_tolerance)`:
balance starts at `initial_balance` and the tolerance is clamped to
`[0.1, 1.0]`. -/
def initManager (initial_balance risk_tolerance : ℚ) : RiskState :=
  { initial_balance := initial_balance
    current_balance := initial_balance
    risk_tolerance := max (1/10) (min 1 risk_tolerance)
    trades := []
    win_streak := 0
    loss_streak := 0
    daily_results := [] }

/-- `AdaptiveRiskManager.update_balance`: `current_balance = max(0, new_balance)`. -/
def update_balance (s : RiskState) (new_balance : ℚ) : RiskState :=
  { s with current_balance := max 0 new_balance }

/-- Replace the binding of `key` in an association list, or append a new
binding — the Python dict assignment `self.daily_results[date] = d`. -/
def setDaily : List (String × DailyResult) → String → DailyResult → List (String × DailyResult)
  | [], key, v => [(key, v)]
  | (k', v') :: rest, key, v =>
      if k' == key then (key, v) :: rest else (k', v') :: setDaily rest key v

/-- `AdaptiveRiskManager.record_trade(trade_result)`: append the trade,
update the win/loss streaks (a win resets `loss_streak`, a loss resets
`win_streak`), and update the day's aggregate in `daily_results`. -/
def record_trade (s : RiskState) (t : Trade) : RiskState :=
  let s1 := { s with trades := s.trades ++ [t] }
  let s2 :=
    if t.win then
      { s1 with win_streak := s1.win_streak + 1, loss_streak := 0 }
    else
      { s1 with loss_streak := s1.loss_streak + 1, win_streak := 0 }
  let d0 : DailyResult :=
    (s2.daily_results.lookup t.date).getD ⟨0, 0, 0, 0⟩
  let d1 : DailyResult :=
    { d0 with trades := d0.trades + 1, profit_loss := d0.profit_loss + t.profit_loss }
  let d2 : DailyResult :=
    if t.win then { d1 with wins := d1.wins + 1 } else { d1 with losses := d1.losses + 1 }
  { s2 with daily_results := setDaily s2.daily_results t.date d2 }

/-- `AdaptiveRiskManager.get_optimal_stake(market_volatility, probability)`.
The optional `market` argument of the Python method is unused by its body
and omitted. -/
def get_optimal_stake (s : RiskState) (market_volatility probability : ℚ) : ℚ :=
  -- Base risk percentage adjusted for risk tolerance
  let risk_pct := base_risk_percent * s.risk_tolerance
  -- Adjust for market volatility (reduce risk in high volatility)
  let volatility_factor := 1 - market_volatility * (1/2)
  let risk_pct := risk_pct * volatility_factor
  -- Adjust for win probability (increase risk with higher probability)
  let probability_factor := (probability - 1/2) * 2
  let risk_adjustment := 1 + max (-(1/2)) (min 1 probability_factor)
  let risk_pct := risk_pct * risk_adjustment
  -- Adjust for win/loss streaks
  let risk_pct :=
    if 2 < s.win_streak then
      risk_pct * min (3/2) (1 + (s.win_streak : ℚ) * (1/10))
    else if 1 < s.loss_streak then
      risk_pct * max (1/2) (1 - (s.loss_streak : ℚ) * (1/5))
    else risk_pct
  -- Enforce limits
  let risk_pct := max min_risk_percent (min max_risk_percent risk_pct)
  -- Calculate stake based on balance and risk percentage
  let stake := s.current_balance * risk_pct
  -- Round to 2 decimal places
  let stake := round2 stake
  -- Ensure minimum stake of $1
  max 1 stake

/-- The multiplicative effect of the win/loss-streak branch of
`get_optimal_stake` (`1` when neither branch fires), used to state the
closed form of the stake computation. -/
def streak_factor (ws ls : ℕ) : ℚ :=
  if 2 < ws then min (3/2) (1 + (ws : ℚ) * (1/10))
  else if 1 < ls then max (1/2) (1 - (ls : ℚ) * (1/5))
  else 1

/-- `AdaptiveRiskManager.should_stop_trading()`.  `today` abstracts
`datetime.now().strftime('%Y-%m-%d')`. -/
def should_stop_trading (s : RiskState) (today : String) : Bool × Option String :=
  -- Check for severe drawdown
  if s.current_balance < s.initial_balance * (3/4) then
    (true, some "Severe drawdown detected (>25% of initial balance)")
  -- Check for excessive consecutive losses
  else if 5 ≤ s.loss_streak then
    (true, some ("Excessive consecutive losses (" ++ toString s.loss_streak ++ ")"))
  -- Check daily loss limit
  else
    match s.daily_results.lookup today with
    | some daily =>
        if daily.profit_loss < -s.initial_balance * (1/10) then
          (true, some "Daily loss limit exceeded (>10% of initial balance)")
        else (false, none)
    | none => (false, none)

/-! ### `strategy_engine.py` / `advanced_pattern_recognition.py` embedding

OHLC dataframes are lists of candles; pandas series are lists, with
`Option ℚ` entries where pandas produces `NaN`.  Comparisons against a
possibly-`NaN` value follow IEEE semantics: any comparison with `NaN` is
false (`oGT`/`oLT`/`oGE`/`oLE` below). -/

/-- One OHLC bar.  The Python column `open` is a Lean keyword, renamed
`open_`. -/
structure Candle where
  open_ : ℚ
  high : ℚ
  low : ℚ
  close : ℚ
  deriving Repr, DecidableEq

/-- A strategy result dict `{trade_type, probability, confidence,
stake_multiplier}`. -/
structure Signal where
  trade_type : Option String
  probability : ℚ
  confidence : ℚ
  stake_multiplier : ℚ
  deriving Repr, DecidableEq

/-- The `result` dict each strategy initialises:
`{'trade_type': None, 'probability': 0.0, 'confidence': 0.0, 'stake_multiplier': 1.0}`. -/
def nullSignal : Signal :=
  { trade_type := none, probability := 0, confidence := 0, stake_multiplier := 1 }

/-- `series[-1]` on a list known nonempty (default `d` is unreachable at
use sites, which are guarded by length checks). -/
def lastD (l : List ℚ) (d : ℚ) : ℚ := l.getLast?.getD d

/-- `series[-1]` on a series that may hold `NaN` entries. -/
def oLast (l : List (Option ℚ)) : Option ℚ := l.getLast?.join

/-- `x > y` where `x` may be `NaN` (Python: any comparison with NaN is false). -/
def oGT (x : Option ℚ) (y : ℚ) : Bool :=
  match x with
  | some v => decide (y < v)
  | none => false

/-- `x < y` where `x` may be `NaN`. -/
def oLT (x : Option ℚ) (y : ℚ) : Bool :=
  match x with
  | some v => decide (v < y)
  | none => false

/-- `x >= y` where `x` may be `NaN`. -/
def oGE (x : Option ℚ) (y : ℚ) : Bool :=
  match x with
  | some v => decide (y ≤ v)
  | none => false

/-- `x <= y` where `x` may be `NaN`. -/
def oLE (x : Option ℚ) (y : ℚ) : Bool :=
  match x with
  | some v => decide (v ≤ y)
  | none => false

/-- `np.max` of a list with a default for the empty case; every use site
is guarded so the default is unreachable. -/
def listMaxD (l : List ℚ) (d : ℚ) : ℚ :=
  match l with
  | [] => d
  | x :: xs => xs.foldl max x

/-- `np.min` of a list with a default for the empty case. -/
def listMinD (l : List ℚ) (d : ℚ) : ℚ :=
  match l with
  | [] => d
  | x :: xs => xs.foldl min x

/-- Tail of the recursion of `fallback_ema`: given the previous EMA value,
emit `a*y + (1-a)*prev` for each further sample (pandas
`ewm(span, adjust=False)` recurrence). -/
def emaGo (a : ℚ) (prev : ℚ) : List ℚ → List ℚ
  | [] => []
  | y :: ys =>
      let e := a * y + (1 - a) * prev
      e :: emaGo a e ys

/-- `fallback_ema(data, timeperiod)`: `data.ewm(span=timeperiod,
adjust=False).mean()` — smoothing factor `2/(span+1)`, seeded with the
first sample. -/
def fallback_ema (data : List ℚ) (timeperiod : ℕ) : List ℚ :=
  match data with
  | [] => []
  | x :: xs => x :: emaGo (2 / ((timeperiod : ℚ) + 1)) x xs

/-- `fallback_sma(data, timeperiod)`: `data.rolling(window=timeperiod).mean()`.
Entry `i` is `NaN` (`none`) until a full window is available. -/
def fallback_sma (data : List ℚ) (timeperiod : ℕ) : List (Option ℚ) :=
  (List.range data.length).map fun i =>
    if timeperiod ≤ i + 1 then
      some ((((data.drop (i + 1 - timeperiod)).take timeperiod).sum) / timeperiod)
    else none

/-- `avg_gain` of `fallback_rsi` at index `i`: the rolling mean of the
clipped diffs `gain = delta.clip(lower=0)`.  `delta[0]` is `NaN`, so the
first index with a full window of non-`NaN` gains is `i = timeperiod`;
below that the rolling mean is `NaN` (`none`). -/
def rsi_avg_gain (data : List ℚ) (timeperiod i : ℕ) : Option ℚ :=
  if timeperiod ≤ i ∧ i < data.length then
    some ((((List.range timeperiod).map fun k =>
      max (data.getD (i - k) 0 - data.getD (i - k - 1) 0) 0).sum) / timeperiod)
  else none

/-- `avg_loss` of `fallback_rsi` at index `i`: rolling mean of
`loss = -delta.clip(upper=0)`. -/
def rsi_avg_loss (data : List ℚ) (timeperiod i : ℕ) : Option ℚ :=
  if timeperiod ≤ i ∧ i < data.length then
    some ((((List.range timeperiod).map fun k =>
      max (data.getD (i - k - 1) 0 - data.getD (i - k) 0) 0).sum) / timeperiod)
  else none

/-- Entry `i` of `fallback_rsi`: `100 - 100/(1 + avg_gain/avg_loss)` under
IEEE float semantics.  With `avg_loss = 0` and `avg_gain > 0` the quotient
is `+∞` and the RSI is exactly `100.0`; with `avg_gain = avg_loss = 0` the
quotient is `NaN` (`none`); otherwise both averages are positive finite
and the formula is ordinary arithmetic. -/
def rsiAt (data : List ℚ) (timeperiod i : ℕ) : Option ℚ :=
  match rsi_avg_gain data timeperiod i, rsi_avg_loss data timeperiod i with
  | some g, some l =>
      if l = 0 then (if g = 0 then none else some 100)
      else some (100 - 100 / (1 + g / l))
  | _, _ => none

/-- `fallback_rsi(data, timeperiod)` as a series. -/
def fallback_rsi (data : List ℚ) (timeperiod : ℕ) : List (Option ℚ) :=
  (List.range data.length).map (rsiAt data timeperiod)

/-- `StrategyEngine.pattern_based_strategy`. -/
def pattern_based_strategy (ohlc_data : List Candle)
    (ohlc_data_dict : List (String × List Candle)) (market : String)
    (trade_types : List String) : Signal :=
  let result := nullSignal
  -- Ensure we have enough data
  if ohlc_data.length < 30 then result
  else
    let open_prices := ohlc_data.map (·.open_)
    let close_prices := ohlc_data.map (·.close)
    let high_prices := ohlc_data.map (·.high)
    let low_prices := ohlc_data.map (·.low)
    let ema20 := fallback_ema close_prices 20
    let trend_bullish : Bool := decide (lastD ema20 0 < lastD close_prices 0)
    -- Hammer: lower shadow at least 2x body, tiny upper shadow, bullish close
    let is_hammer : ℕ → Bool := fun i =>
      let body_size := |close_prices.getD i 0 - open_prices.getD i 0|
      if body_size = 0 then false
      else
        let lower_shadow := min (open_prices.getD i 0) (close_prices.getD i 0) - low_prices.getD i 0
        let upper_shadow := high_prices.getD i 0 - max (open_prices.getD i 0) (close_prices.getD i 0)
        decide (2 * body_size ≤ lower_shadow ∧ upper_shadow ≤ (2/10) * body_size ∧
          open_prices.getD i 0 < close_prices.getD i 0)
    -- Shooting star: upper shadow at least 2x body, tiny lower shadow, bearish close
    let is_shooting_star : ℕ → Bool := fun i =>
      let body_size := |close_prices.getD i 0 - open_prices.getD i 0|
      if body_size = 0 then false
      else
        let lower_shadow := min (open_prices.getD i 0) (close_prices.getD i 0) - low_prices.getD i 0
        let upper_shadow := high_prices.getD i 0 - max (open_prices.getD i 0) (close_prices.getD i 0)
        decide (2 * body_size ≤ upper_shadow ∧ lower_shadow ≤ (2/10) * body_size ∧
          close_prices.getD i 0 < open_prices.getD i 0)
    let is_bullish_engulfing : ℕ → Bool := fun i =>
      decide (open_prices.getD i 0 < close_prices.getD (i - 1) 0 ∧
        open_prices.getD (i - 1) 0 < close_prices.getD i 0 ∧
        open_prices.getD i 0 < close_prices.getD i 0 ∧
        close_prices.getD (i - 1) 0 < open_prices.getD (i - 1) 0)
    let is_bearish_engulfing : ℕ → Bool := fun i =>
      decide (close_prices.getD (i - 1) 0 < open_prices.getD i 0 ∧
        close_prices.getD i 0 < open_prices.getD (i - 1) 0 ∧
        close_prices.getD i 0 < open_prices.getD i 0 ∧
        open_prices.getD (i - 1) 0 < close_prices.getD (i - 1) 0)
    -- Look for patterns in the last few candles, skipping i <= 0
    let idxs := (List.range' (ohlc_data.length - 5) 5).filter fun i => decide (0 < i)
    let bullish_patterns := idxs.countP is_hammer + idxs.countP is_bullish_engulfing
    let bearish_patterns := idxs.countP is_shooting_star + idxs.countP is_bearish_engulfing
    let result :=
      if 0 < bullish_patterns ∧ trend_bullish = true then
        if trade_types.contains "CALL" then
          { result with
            trade_type := some "CALL"
            probability := 6/10 + (5/100) * bullish_patterns
            confidence := 65/100 }
        else if trade_types.contains "RISE" then
          { result with
            trade_type := some "RISE"
            probability := 6/10 + (5/100) * bullish_patterns
            confidence := 65/100 }
        else result
      else if 0 < bearish_patterns ∧ trend_bullish = false then
        if trade_types.contains "PUT" then
          { result with
            trade_type := some "PUT"
            probability := 6/10 + (5/100) * bearish_patterns
            confidence := 65/100 }
        else if trade_types.contains "FALL" then
          { result with
            trade_type := some "FALL"
            probability := 6/10 + (5/100) * bearish_patterns
            confidence := 65/100 }
        else result
      else result
    -- Adjust confidence based on pattern strength
    let pattern_count := max bullish_patterns bearish_patterns
    if 3 ≤ pattern_count then
      { result with confidence := 8/10, stake_multiplier := 3/2 }
    else if 2 ≤ pattern_count then
      { result with confidence := 7/10, stake_multiplier := 12/10 }
    else
      { result with stake_multiplier := 1 }

/-- `StrategyEngine.trend_following_strategy`. -/
def trend_following_strategy (ohlc_data : List Candle)
    (ohlc_data_dict : List (String × List Candle)) (market : String)
    (trade_types : List String) : Signal :=
  let result := nullSignal
  -- Ensure we have enough data
  if ohlc_data.length < 30 then result
  else
    let close_prices := ohlc_data.map (·.close)
    let sma20 := fallback_sma close_prices 20
    let ema10 := fallback_ema close_prices 10
    let current_price := lastD close_prices 0
    let current_sma20 := oLast sma20
    let current_ema10 := lastD ema10 0
    let uptrend : Bool := oLT current_sma20 current_price && oLT current_sma20 current_ema10
    let downtrend : Bool := oGT current_sma20 current_price && oGT current_sma20 current_ema10
    let result :=
      if uptrend then
        if trade_types.contains "CALL" then
          { result with
            trade_type := some "CALL"
            probability := 65/100
            confidence := 7/10 }
        else if trade_types.contains "RISEFALL" then
          { result with
            trade_type := some "RISEFALL"
            probability := 65/100
            confidence := 7/10 }
        else if trade_types.contains "DIGITEVEN" then
          { result with
            trade_type := some "DIGITEVEN"
            probability := 55/100
            confidence := 6/10 }
        else result
      else if downtrend then
        if trade_types.contains "PUT" then
          { result with
            trade_type := some "PUT"
            probability := 65/100
            confidence := 7/10 }
        else if trade_types.contains "FALL" then
          { result with
            trade_type := some "FALL"
            probability := 65/100
            confidence := 7/10 }
        else if trade_types.contains "DIGITODD" then
          { result with
            trade_type := some "DIGITODD"
            probability := 55/100
            confidence := 6/10 }
        else result
      else result
    -- Calculate stake multiplier based on signal strength
    if 7/10 < result.probability then { result with stake_multiplier := 3/2 }
    else if 6/10 < result.probability then { result with stake_multiplier := 12/10 }
    else { result with stake_multiplier := 1 }

/-- `StrategyEngine.mean_reversion_strategy`. -/
def mean_reversion_strategy (ohlc_data : List Candle)
    (ohlc_data_dict : List (String × List Candle)) (market : String)
    (trade_types : List String) : Signal :=
  let result := nullSignal
  -- Ensure we have enough data
  if ohlc_data.length < 30 then result
  else
    let close_prices := ohlc_data.map (·.close)
    let rsi := fallback_rsi close_prices 14
    let current_rsi := oLast rsi
    let oversold : Bool := oLE current_rsi 30
    let overbought : Bool := oGE current_rsi 70
    let result :=
      if oversold then
        if trade_types.contains "CALL" then
          { result with
            trade_type := some "CALL"
            probability := 7/10
            confidence := 65/100 }
        else if trade_types.contains "RISE" then
          { result with
            trade_type := some "RISE"
            probability := 7/10
            confidence := 65/100 }
        else if trade_types.contains "DIGITEVEN" then
          { result with
            trade_type := some "DIGITEVEN"
            probability := 55/100
            confidence := 6/10 }
        else result
      else if overbought then
        if trade_types.contains "PUT" then
          { result with
            trade_type := some "PUT"
            probability := 7/10
            confidence := 65/100 }
        else if trade_types.contains "FALL" then
          { result with
            trade_type := some "FALL"
            probability := 7/10
            confidence := 65/100 }
        else if trade_types.contains "DIGITODD" then
          { result with
            trade_type := some "DIGITODD"
            probability := 55/100
            confidence := 6/10 }
        else result
      else result
    -- Determine stake size based on RSI extremity
    if oLE current_rsi 20 || oGE current_rsi 80 then
      { result with stake_multiplier := 3/2, confidence := min (8/10) (result.confidence + 1/10) }
    else if oLE current_rsi 25 || oGE current_rsi 75 then
      { result with stake_multiplier := 12/10 }
    else
      { result with stake_multiplier := 1 }

/-- `StrategyEngine.breakout_strategy`. -/
def breakout_strategy (ohlc_data : List Candle)
    (ohlc_data_dict : List (String × List Candle)) (market : String)
    (trade_types : List String) : Signal :=
  let result := nullSignal
  -- Ensure we have enough data
  if ohlc_data.length < 30 then result
  else
    let close_prices := ohlc_data.map (·.close)
    let high_prices := ohlc_data.map (·.high)
    let low_prices := ohlc_data.map (·.low)
    let sma50 := fallback_sma close_prices 50
    -- Identify recent highs and lows: high_prices[-window:-1] etc.
    let window := 10
    let resistance_level := listMaxD ((high_prices.drop (high_prices.length - window)).dropLast) 0
    let support_level := listMinD ((low_prices.drop (low_prices.length - window)).dropLast) 0
    let current_price := lastD close_prices 0
    let current_sma := oLast sma50
    let resistance_breakout : Bool := decide (resistance_level * (1005/1000) < current_price)
    let support_breakout : Bool := decide (current_price < support_level * (995/1000))
    let uptrend : Bool := oLT current_sma current_price
    let result :=
      if resistance_breakout && uptrend then
        if trade_types.contains "CALL" then
          { result with
            trade_type := some "CALL"
            probability := 7/10
            confidence := 75/100 }
        else if trade_types.contains "RISE" then
          { result with
            trade_type := some "RISE"
            probability := 7/10
            confidence := 75/100 }
        else result
      else if support_breakout && !uptrend then
        if trade_types.contains "PUT" then
          { result with
            trade_type := some "PUT"
            probability := 7/10
            confidence := 75/100 }
        else if trade_types.contains "FALL" then
          { result with
            trade_type := some "FALL"
            probability := 7/10
            confidence := 75/100 }
        else result
      else result
    -- Determine stake size based on breakout strength
    let breakout_strength :=
      if resistance_breakout then (current_price - resistance_level) / resistance_level
      else (support_level - current_price) / support_level
    if 1/100 < breakout_strength then
      { result with stake_multiplier := 3/2, confidence := min (85/100) (result.confidence + 1/10) }
    else
      { result with stake_multiplier := 1 }

/-- The `required_timeframes` list of `multi_timeframe_strategy`. -/
def required_timeframes : List String := ["1m", "5m", "15m"]

/-- Per-timeframe accumulation step of `multi_timeframe_strategy`: EMA
alignment adds a full bullish/bearish signal, RSI above 60 / below 40 adds
half a signal. -/
def mtfStep (ohlc_data_dict : List (String × List Candle)) (acc : ℚ × ℚ)
    (timeframe : String) : ℚ × ℚ :=
  let tf_data := (ohlc_data_dict.lookup timeframe).getD []
  let close_prices := tf_data.map (·.close)
  let rsi := oLast (fallback_rsi close_prices 14)
  let ema20 := lastD (fallback_ema close_prices 20) 0
  let ema50 := lastD (fallback_ema close_prices 50) 0
  let current_price := lastD close_prices 0
  let acc :=
    if ema20 < current_price ∧ ema50 < ema20 then (acc.1 + 1, acc.2) else acc
  let acc :=
    if current_price < ema20 ∧ ema20 < ema50 then (acc.1, acc.2 + 1) else acc
  if oGT rsi 60 then (acc.1 + 1/2, acc.2)
  else if oLT rsi 40 then (acc.1, acc.2 + 1/2)
  else acc

/-- `StrategyEngine.multi_timeframe_strategy`. -/
def multi_timeframe_strategy (ohlc_data : List Candle)
    (ohlc_data_dict : List (String × List Candle)) (market : String)
    (trade_types : List String) : Signal :=
  let result := nullSignal
  -- Ensure we have data for at least 3 timeframes
  if required_timeframes.any (fun tf =>
      match ohlc_data_dict.lookup tf with
      | none => true
      | some d => decide (d.length < 30)) then result
  else
    let signals := required_timeframes.foldl (mtfStep ohlc_data_dict) (0, 0)
    let bullish_signals := signals.1
    let bearish_signals := signals.2
    let result :=
      if 5/2 ≤ bullish_signals ∧ bearish_signals < bullish_signals then
        if trade_types.contains "CALL" then
          { result with
            trade_type := some "CALL"
            probability := 7/10
            confidence := 75/100 }
        else if trade_types.contains "RISE" then
          { result with
            trade_type := some "RISE"
            probability := 7/10
            confidence := 75/100 }
        else result
      else if 5/2 ≤ bearish_signals ∧ bullish_signals < bearish_signals then
        if trade_types.contains "PUT" then
          { result with
            trade_type := some "PUT"
            probability := 7/10
            confidence := 75/100 }
        else if trade_types.contains "FALL" then
          { result with
            trade_type := some "FALL"
            probability := 7/10
            confidence := 75/100 }
        else result
      else result
    -- Adjust confidence based on signal strength
    let signal_strength := max bullish_signals bearish_signals
    if 4 ≤ signal_strength then
      { result with confidence := 85/100, stake_multiplier := 3/2 }
    else if 3 ≤ signal_strength then
      { result with confidence := 75/100, stake_multiplier := 12/10 }
    else
      { result with stake_multiplier := 1 }

/-! ### `PatternRecognition.detect_swing_points`

`np.max`/`np.min` of an empty slice raise `ValueError`; the `Option`
result propagates that as `none`.  The empty-slice case is reachable only
for `window = 0`. -/

/-- The body of one iteration of the `detect_swing_points` loop at index
`i`: `(is swing high, is swing low)`, or `none` if a window slice is
empty (numpy exception). -/
def swingStep (prices : List ℚ) (window i : ℕ) : Option (Bool × Bool) :=
  let left_window := (prices.drop (i - window)).take window
  let right_window := (prices.drop (i + 1)).take window
  let current := prices.getD i 0
  match left_window, right_window with
  | [], _ => none
  | _, [] => none
  | x :: xs, y :: ys =>
      some (decide (xs.foldl max x < current ∧ ys.foldl max y < current),
            decide (current < xs.foldl min x ∧ current < ys.foldl min y))

/-- The `for i in range(window, len(prices) - window)` loop, collecting
swing-high and swing-low indices in order; `none` if any iteration raised. -/
def swingLoop (prices : List ℚ) (window : ℕ) : List ℕ → Option (List ℕ × List ℕ)
  | [] => some ([], [])
  | i :: rest =>
      match swingStep prices window i, swingLoop prices window rest with
      | some (hi, lo), some (hs, ls) =>
          some ((if hi then [i] else []) ++ hs, (if lo then [i] else []) ++ ls)
      | _, _ => none

/-- `PatternRecognition.detect_swing_points(prices, window)`. -/
def detect_swing_points (prices : List ℚ) (window : ℕ) : Option (List ℕ × List ℕ) :=
  if prices.length < window * 2 then some ([], [])
  else swingLoop prices window (List.range' window (prices.length - 2 * window))

/-! ## Helper lemmas -/

theorem floor_bridge (q : ℚ) : q.floor = ⌊q⌋ := by
  rw [Rat.floor_def', Rat.floor_def]

theorem round2_mono {x y : ℚ} (h : x ≤ y) : round2 x ≤ round2 y := by
  unfold round2
  have hf : round (x * 100) ≤ round (y * 100) := by
    rw [round_eq, round_eq]
    exact Int.floor_le_floor (by linarith)
  have hq : ((round (x * 100) : ℤ) : ℚ) ≤ ((round (y * 100) : ℤ) : ℚ) := by exact_mod_cast hf
  linarith

theorem round2_concrete (x : ℚ) (n : ℤ) (h1 : (n : ℚ) ≤ x * 100 + 1/2)
    (h2 : x * 100 + 1/2 < n + 1) : round2 x = (n : ℚ) / 100 := by
  unfold round2
  have hf : round (x * 100) = n := by
    rw [round_eq, Int.floor_eq_iff]
    exact ⟨h1, by exact_mod_cast h2⟩
  rw [hf]

/-- Closed form of `get_optimal_stake` in terms of `streak_factor`. -/
theorem get_optimal_stake_eq (s : RiskState) (v p : ℚ) :
    get_optimal_stake s v p =
      max 1 (round2 (s.current_balance * (max min_risk_percent (min max_risk_percent
        (base_risk_percent * s.risk_tolerance * (1 - v * (1/2)) *
          (1 + max (-(1/2)) (min 1 ((p - 1/2) * 2))) *
          streak_factor s.win_streak s.loss_streak))))) := by
  simp only [get_optimal_stake, streak_factor]
  split_ifs <;> ring_nf

theorem clamped_risk_le (r : ℚ) :
    max min_risk_percent (min max_risk_percent r) ≤ 5/100 := by
  apply max_le
  · norm_num [min_risk_percent]
  · exact le_trans (min_le_left _ _) (by norm_num [max_risk_percent])

/-- Shared content of the stake-bound claims: the stake is at least `1`
and at most `max 1 (round2 (5% of balance))`, for arbitrary volatility,
probability, tolerance and streak state. -/
theorem stake_in_caps (s : RiskState) (v p : ℚ) (hb : 0 ≤ s.current_balance) :
    1 ≤ get_optimal_stake s v p ∧
    get_optimal_stake s v p ≤ max 1 (round2 ((5/100) * s.current_balance)) := by
  rw [get_optimal_stake_eq]
  refine ⟨le_max_left _ _, max_le (le_max_left _ _) (le_trans ?_ (le_max_right _ _))⟩
  apply round2_mono
  rw [mul_comm (5/100 : ℚ) s.current_balance]
  exact mul_le_mul_of_nonneg_left (clamped_risk_le _) hb

theorem record_trade_win_streak (s : RiskState) (t : Trade) :
    (record_trade s t).win_streak = if t.win then s.win_streak + 1 else 0 := by
  cases ht : t.win <;> simp [record_trade, ht]

theorem record_trade_loss_streak (s : RiskState) (t : Trade) :
    (record_trade s t).loss_streak = if t.win then 0 else s.loss_streak + 1 := by
  cases ht : t.win <;> simp [record_trade, ht]

/-- Folding a list of losing trades adds its length to the loss streak and
zeroes the win streak (unless the list is empty). -/
theorem fold_losses (ts : List Trade) (s : RiskState) (h : ∀ t ∈ ts, t.win = false) :
    (ts.foldl record_trade s).loss_streak = s.loss_streak + ts.length ∧
    (ts.foldl record_trade s).win_streak = if ts = [] then s.win_streak else 0 := by
  induction ts generalizing s with
  | nil => simp
  | cons t ts ih =>
    have ht : t.win = false := h t (List.mem_cons_self _ _)
    have h' : ∀ u ∈ ts, u.win = false := fun u hu => h u (List.mem_cons_of_mem _ hu)
    have hrec := ih (record_trade s t) h'
    simp only [List.foldl_cons]
    constructor
    · rw [hrec.1, record_trade_loss_streak, ht]
      simp only [Bool.false_eq_true, if_false, List.length_cons]
      omega
    · rw [hrec.2]
      rcases ts with _ | ⟨u, us⟩
      · simp [record_trade_win_streak, ht]
      · simp

/-! ## Claim theorems -/

/-- C2: `should_stop_trading` returns `true` iff the balance has fallen
strictly below 75% of the initial balance, or `loss_streak ≥ 5`, or the
current day's recorded P/L is strictly below −10% of the initial balance;
`true` comes with a reason string, `false` with no reason, and at the
exact 75% boundary (other conditions failing) it returns `false`. -/
theorem c2_should_stop_iff (s : RiskState) (today : String) :
    ((should_stop_trading s today).1 = true ↔
      (s.current_balance < s.initial_balance * (3/4) ∨ 5 ≤ s.loss_streak ∨
        ∃ d, s.daily_results.lookup today = some d ∧
          d.profit_loss < -s.initial_balance * (1/10))) ∧
    ((should_stop_trading s today).1 = true →
      ((should_stop_trading s today).2).isSome = true) ∧
    ((should_stop_trading s today).1 = false →
      (should_stop_trading s today).2 = none) ∧
    (s.current_balance = s.initial_balance * (3/4) → s.loss_streak < 5 →
      (∀ d, s.daily_results.lookup today = some d →
        -s.initial_balance * (1/10) ≤ d.profit_loss) →
      (should_stop_trading s today).1 = false) := by
  unfold should_stop_trading
  split_ifs with h1 h2
  · refine ⟨iff_of_true rfl (Or.inl h1), fun _ => rfl, ?_, ?_⟩
    · intro h
      exact absurd h (by simp)
    · intro hEq _ _
      exact absurd (hEq ▸ h1) (lt_irrefl _)
  · refine ⟨iff_of_true rfl (Or.inr (Or.inl h2)), fun _ => rfl, ?_, ?_⟩
    · intro h
      exact absurd h (by simp)
    · intro _ hlt _
      exact absurd h2 (by omega)
  · rcases hl : s.daily_results.lookup today with _ | d
    · refine ⟨?_, ?_, fun _ => rfl, fun _ _ _ => rfl⟩
      · refine iff_of_false (fun h => by simp at h) ?_
        rintro (h | h | ⟨d, hd, _⟩)
        · exact h1 h
        · exact h2 h
        · cases hd
      · intro h
        exact absurd h (by simp)
    · dsimp only
      split_ifs with h3
      · refine ⟨iff_of_true rfl (Or.inr (Or.inr ⟨d, rfl, h3⟩)), fun _ => rfl, ?_, ?_⟩
        · intro h
          exact absurd h (by simp)
        · intro _ _ hg
          exact absurd h3 (not_lt.2 (hg d rfl))
      · refine ⟨?_, ?_, fun _ => rfl, fun _ _ _ => rfl⟩
        · refine iff_of_false (fun h => by simp at h) ?_
          rintro (h | h | ⟨d', hd', hp⟩)
          · exact h1 h
          · exact h2 h
          · cases hd'
            exact h3 hp
        · intro h
          exact absurd h (by simp)

/-- Witness for C2 at a concrete state: a five-loss streak triggers the
stop. -/
theorem c2_witness :
    (should_stop_trading ⟨1000, 1000, 1/2, [], 0, 5, []⟩ "2024-01-01").1 = true :=
  ((c2_should_stop_iff ⟨1000, 1000, 1/2, [], 0, 5, []⟩ "2024-01-01").1).mpr
    (Or.inr (Or.inl (by norm_num)))

/-- C3: the documented scenario — balance 1000, tolerance 0.5,
volatility 0.5, probability 0.5, no streak — yields a stake of exactly
7.5. -/
theorem c3_scenario :
    get_optimal_stake (initManager 1000 (1/2)) (1/2) (1/2) = 15/2 := by
  have hr : round2 (15/2) = 15/2 := by
    rw [round2_concrete (15/2) 750 (by norm_num) (by norm_num)]
    norm_num
  rw [get_optimal_stake_eq]
  norm_num [initManager, streak_factor, base_risk_percent, min_risk_percent,
    max_risk_percent, min_def, max_def, hr]

/-- C5: from a clean-slate streak state, recording `N` straight losses
yields `loss_streak = N` and `win_streak = 0`; recording a winning trade
from any state zeroes `loss_streak` and bumps `win_streak` by one. -/
theorem c5_streak_counting (s : RiskState) (hw : s.win_streak = 0)
    (hl : s.loss_streak = 0) (ts : List Trade) (hts : ∀ t ∈ ts, t.win = false)
    (s' : RiskState) (t : Trade) (ht : t.win = true) :
    ((ts.foldl record_trade s).loss_streak = ts.length ∧
      (ts.foldl record_trade s).win_streak = 0) ∧
    ((record_trade s' t).loss_streak = 0 ∧
      (record_trade s' t).win_streak = s'.win_streak + 1) := by
  have hf := fold_losses ts s hts
  refine ⟨⟨by rw [hf.1, hl]; omega, ?_⟩, ?_, ?_⟩
  · rw [hf.2]
    split_ifs <;> simp [hw]
  · rw [record_trade_loss_streak, ht]
    simp
  · rw [record_trade_win_streak, ht]
    simp

/-- Witness for C5: two concrete losses then a win. -/
theorem c5_witness :
    (([⟨false, -1, "2024-01-01"⟩, ⟨false, -1, "2024-01-01"⟩] :
        List Trade).foldl record_trade (initManager 1000 (1/2))).loss_streak = 2 ∧
    (record_trade ⟨1000, 990, 1/2, [], 2, 0, []⟩ ⟨true, 1, "2024-01-02"⟩).win_streak = 3 := by
  have h := c5_streak_counting (initManager 1000 (1/2)) rfl rfl
    [⟨false, -1, "2024-01-01"⟩, ⟨false, -1, "2024-01-01"⟩] (by simp)
    ⟨1000, 990, 1/2, [], 2, 0, []⟩ ⟨true, 1, "2024-01-02"⟩ rfl
  exact ⟨h.1.1, h.2.2⟩

/-- C6: after any recorded trade the streak counters are mutually
exclusive — `win_streak > 0 ↔ loss_streak = 0` and
`loss_streak > 0 ↔ win_streak = 0`. -/
theorem c6_streaks_mutually_exclusive (s : RiskState) (t : Trade) :
    (0 < (record_trade s t).win_streak ↔ (record_trade s t).loss_streak = 0) ∧
    (0 < (record_trade s t).loss_streak ↔ (record_trade s t).win_streak = 0) := by
  cases ht : t.win <;>
    simp [record_trade_win_streak, record_trade_loss_streak, ht]

theorem stake_formula_mono (b r f₁ f₂ : ℚ) (hb : 0 ≤ b) (hr : 0 ≤ r) (hf : f₁ ≤ f₂) :
    max 1 (round2 (b * (max min_risk_percent (min max_risk_percent (r * f₁))))) ≤
    max 1 (round2 (b * (max min_risk_percent (min max_risk_percent (r * f₂))))) := by
  apply max_le (le_max_left _ _)
  refine le_trans ?_ (le_max_right _ _)
  apply round2_mono
  apply mul_le_mul_of_nonneg_left _ hb
  exact max_le_max le_rfl (min_le_min le_rfl (mul_le_mul_of_nonneg_left hf hr))

theorem streak_factor_win_le_two (ws : ℕ) (h : ws ≤ 2) : streak_factor ws 0 = 1 := by
  unfold streak_factor
  rw [if_neg (by omega), if_neg (by omega)]

theorem streak_factor_loss_le_one_arg (ls : ℕ) (h : ls ≤ 1) : streak_factor 0 ls = 1 := by
  unfold streak_factor
  rw [if_neg (by omega), if_neg (by omega)]

theorem one_le_streak_factor_win (ws : ℕ) (h : 2 < ws) : 1 ≤ streak_factor ws 0 := by
  unfold streak_factor
  rw [if_pos h]
  refine le_min (by norm_num) ?_
  have : (0 : ℚ) ≤ (ws : ℚ) := Nat.cast_nonneg ws
  linarith

theorem streak_factor_loss_le_one (ls : ℕ) (h : 1 < ls) : streak_factor 0 ls ≤ 1 := by
  unfold streak_factor
  rw [if_neg (by omega), if_pos h]
  apply max_le (by norm_num)
  have : (0 : ℚ) ≤ (ls : ℚ) := Nat.cast_nonneg ls
  linarith

/-- The pre-streak risk percentage is nonnegative for in-range tolerance
and volatility (any probability). -/
theorem core_risk_nonneg (tol v p : ℚ) (ht : 0 ≤ tol) (hv : v ≤ 1) :
    0 ≤ base_risk_percent * tol * (1 - v * (1/2)) *
      (1 + max (-(1/2)) (min 1 ((p - 1/2) * 2))) := by
  have h1 : (0 : ℚ) ≤ 1 - v * (1/2) := by linarith
  have h2 : (0 : ℚ) ≤ 1 + max (-(1/2)) (min 1 ((p - 1/2) * 2)) := by
    linarith [le_max_left (-(1/2) : ℚ) (min 1 ((p - 1/2) * 2))]
  have h3 : (0 : ℚ) ≤ base_risk_percent * tol :=
    mul_nonneg (by norm_num [base_risk_percent]) ht
  exact mul_nonneg (mul_nonneg h3 h1) h2

/-- C1 (counterexample): at balance 10 with all documented-range inputs,
the stake is the 1.0 floor, which lies above the claimed cap
`0.05 * balance = 0.5` — so the claimed interval `[1.0, 0.05*balance]`
does not contain the stake (the interval is even empty). -/
theorem c1_counterexample :
    get_optimal_stake ⟨1000, 10, 1/2, [], 0, 0, []⟩ (1/2) (1/2) = 1 ∧
    ¬(get_optimal_stake ⟨1000, 10, 1/2, [], 0, 0, []⟩ (1/2) (1/2) ≤ (5/100) * 10) := by
  have hr : round2 (3/40) = 2/25 := by
    rw [round2_concrete (3/40) 8 (by norm_num) (by norm_num)]
    norm_num
  have hv : get_optimal_stake ⟨1000, 10, 1/2, [], 0, 0, []⟩ (1/2) (1/2) = 1 := by
    rw [get_optimal_stake_eq]
    norm_num [streak_factor, base_risk_percent, min_risk_percent, max_risk_percent,
      min_def, max_def, hr]
  refine ⟨hv, ?_⟩
  rw [hv]
  norm_num

/-- C1 (amended): for balance ≥ 0 and all documented-range inputs the
stake lies in `[1.0, max 1 (round2 (0.05 * balance))]` — the upper end of
the claimed interval must also absorb the $1 minimum-stake floor and the
2-decimal rounding of the cap. -/
theorem c1_stake_bounds (s : RiskState) (v p : ℚ) (hb : 0 ≤ s.current_balance)
    (ht1 : 1/10 ≤ s.risk_tolerance) (ht2 : s.risk_tolerance ≤ 1)
    (hv1 : 1/10 ≤ v) (hv2 : v ≤ 1) (hp1 : 1/10 ≤ p) (hp2 : p ≤ 1) :
    1 ≤ get_optimal_stake s v p ∧
    get_optimal_stake s v p ≤ max 1 (round2 ((5/100) * s.current_balance)) :=
  stake_in_caps s v p hb

/-- Witness for the amended C1 at the documented scenario inputs. -/
theorem c1_stake_bounds_witness :
    1 ≤ get_optimal_stake (initManager 1000 (1/2)) (1/2) (1/2) ∧
    get_optimal_stake (initManager 1000 (1/2)) (1/2) (1/2) ≤
      max 1 (round2 ((5/100) * (initManager 1000 (1/2)).current_balance)) :=
  c1_stake_bounds (initManager 1000 (1/2)) (1/2) (1/2)
    (by norm_num [initManager])
    (by norm_num [initManager, min_def, max_def])
    (by norm_num [initManager, min_def, max_def])
    (by norm_num) (by norm_num) (by norm_num) (by norm_num)

/-- C4 (counterexample): at balance 10 the $1 floor absorbs the streak
adjustment — a 3-win streak does not yield a strictly larger stake, and a
2-loss streak does not yield a strictly smaller one. -/
theorem c4_counterexample :
    ¬(get_optimal_stake ⟨1000, 10, 1/2, [], 0, 0, []⟩ (1/2) (1/2) <
        get_optimal_stake ⟨1000, 10, 1/2, [], 3, 0, []⟩ (1/2) (1/2)) ∧
    ¬(get_optimal_stake ⟨1000, 10, 1/2, [], 0, 2, []⟩ (1/2) (1/2) <
        get_optimal_stake ⟨1000, 10, 1/2, [], 0, 0, []⟩ (1/2) (1/2)) := by
  have hr0 : round2 (3/40) = 2/25 := by
    rw [round2_concrete (3/40) 8 (by norm_num) (by norm_num)]
    norm_num
  have hr3 : round2 (39/400) = 1/10 := by
    rw [round2_concrete (39/400) 10 (by norm_num) (by norm_num)]
    norm_num
  have hr2 : round2 (1/20) = 1/20 := by
    rw [round2_concrete (1/20) 5 (by norm_num) (by norm_num)]
    norm_num
  have h0 : get_optimal_stake ⟨1000, 10, 1/2, [], 0, 0, []⟩ (1/2) (1/2) = 1 := by
    rw [get_optimal_stake_eq]
    norm_num [streak_factor, base_risk_percent, min_risk_percent, max_risk_percent,
      min_def, max_def, hr0]
  have h3 : get_optimal_stake ⟨1000, 10, 1/2, [], 3, 0, []⟩ (1/2) (1/2) = 1 := by
    rw [get_optimal_stake_eq]
    norm_num [streak_factor, base_risk_percent, min_risk_percent, max_risk_percent,
      min_def, max_def, hr3]
  have h2 : get_optimal_stake ⟨1000, 10, 1/2, [], 0, 2, []⟩ (1/2) (1/2) = 1 := by
    rw [get_optimal_stake_eq]
    norm_num [streak_factor, base_risk_percent, min_risk_percent, max_risk_percent,
      min_def, max_def, hr2]
  rw [h0, h2, h3]
  norm_num

/-- C4 (amended): all else equal and in documented ranges, a win streak
above 2 yields a stake at least as large as the same call with a streak of
at most 2, and a loss streak above 1 yields a stake at most as large as
with a loss streak of at most 1 (weak inequalities: the `[0.005, 0.05]`
clamp, the 2-decimal rounding and the $1 floor can absorb the
adjustment). -/
theorem c4_streak_monotone (s : RiskState) (v p : ℚ) (hb : 0 ≤ s.current_balance)
    (ht1 : 1/10 ≤ s.risk_tolerance) (ht2 : s.risk_tolerance ≤ 1)
    (hv1 : 1/10 ≤ v) (hv2 : v ≤ 1)
    (ws ws' ls ls' : ℕ) (hws : 2 < ws) (hws' : ws' ≤ 2)
    (hls : 1 < ls) (hls' : ls' ≤ 1) :
    get_optimal_stake { s with win_streak := ws', loss_streak := 0 } v p ≤
      get_optimal_stake { s with win_streak := ws, loss_streak := 0 } v p ∧
    get_optimal_stake { s with win_streak := 0, loss_streak := ls } v p ≤
      get_optimal_stake { s with win_streak := 0, loss_streak := ls' } v p := by
  have hr := core_risk_nonneg s.risk_tolerance v p (by linarith) hv2
  constructor
  · rw [get_optimal_stake_eq, get_optimal_stake_eq]
    dsimp only
    rw [streak_factor_win_le_two ws' hws']
    exact stake_formula_mono _ _ 1 _ hb hr (one_le_streak_factor_win ws hws)
  · rw [get_optimal_stake_eq, get_optimal_stake_eq]
    dsimp only
    rw [streak_factor_loss_le_one_arg ls' hls']
    exact stake_formula_mono _ _ _ 1 hb hr (streak_factor_loss_le_one ls hls)

/-- Witness for the amended C4 at concrete inputs. -/
theorem c4_streak_monotone_witness :
    get_optimal_stake { (⟨1000, 1000, 1/2, [], 0, 0, []⟩ : RiskState) with
        win_streak := 0, loss_streak := 0 } (1/2) (1/2) ≤
      get_optimal_stake { (⟨1000, 1000, 1/2, [], 0, 0, []⟩ : RiskState) with
        win_streak := 3, loss_streak := 0 } (1/2) (1/2) ∧
    get_optimal_stake { (⟨1000, 1000, 1/2, [], 0, 0, []⟩ : RiskState) with
        win_streak := 0, loss_streak := 2 } (1/2) (1/2) ≤
      get_optimal_stake { (⟨1000, 1000, 1/2, [], 0, 0, []⟩ : RiskState) with
        win_streak := 0, loss_streak := 0 } (1/2) (1/2) :=
  c4_streak_monotone ⟨1000, 1000, 1/2, [], 0, 0, []⟩ (1/2) (1/2)
    (by norm_num) (by norm_num) (by norm_num) (by norm_num) (by norm_num)
    3 0 2 0 (by norm_num) (by norm_num) (by norm_num) (by norm_num)

/-- C10: for any balance ≥ 0 and completely arbitrary volatility,
probability, tolerance and streak state, the stake lies in
`[1.0, max 1 (round2 (0.05 * balance))]` — the risk percentage is clamped
to `[0.005, 0.05]` before multiplying by the balance, the result is
rounded to 2 decimals, and the $1 floor applies last. -/
theorem c10_stake_always_capped (s : RiskState) (v p : ℚ)
    (hb : 0 ≤ s.current_balance) :
    1 ≤ get_optimal_stake s v p ∧
    get_optimal_stake s v p ≤ max 1 (round2 ((5/100) * s.current_balance)) :=
  stake_in_caps s v p hb

/-- Witness for C10 at deliberately out-of-range inputs (tolerance 2,
volatility 5, probability −3, zero balance). -/
theorem c10_witness :
    1 ≤ get_optimal_stake ⟨1000, 0, 2, [], 4, 0, []⟩ 5 (-3) ∧
    get_optimal_stake ⟨1000, 0, 2, [], 4, 0, []⟩ 5 (-3) ≤
      max 1 (round2 ((5/100) * (⟨1000, 0, 2, [], 4, 0, []⟩ : RiskState).current_balance)) :=
  c10_stake_always_capped ⟨1000, 0, 2, [], 4, 0, []⟩ 5 (-3) (by norm_num)

/-- On a pointwise strictly increasing series, the final RSI value is
exactly 100 (zero average loss, positive average gain). -/
theorem rsiAt_last_of_inc (prices : List ℚ) (hlen : 15 ≤ prices.length)
    (hmono : ∀ j, j + 1 < prices.length → prices.getD j 0 < prices.getD (j+1) 0) :
    rsiAt prices 14 (prices.length - 1) = some 100 := by
  have hi : 14 ≤ prices.length - 1 ∧ prices.length - 1 < prices.length := by omega
  unfold rsiAt rsi_avg_gain rsi_avg_loss
  rw [if_pos hi, if_pos hi]
  have hloss : ((List.range 14).map fun k =>
      max (prices.getD (prices.length - 1 - k - 1) 0 -
        prices.getD (prices.length - 1 - k) 0) 0).sum = 0 := by
    apply List.sum_eq_zero
    intro x hx
    rw [List.mem_map] at hx
    obtain ⟨k, hk, rfl⟩ := hx
    rw [List.mem_range] at hk
    have h1 : (prices.length - 1 - k - 1) + 1 = prices.length - 1 - k := by omega
    have h2 : (prices.length - 1 - k - 1) + 1 < prices.length := by omega
    have h3 := hmono (prices.length - 1 - k - 1) h2
    rw [h1] at h3
    exact max_eq_right (by linarith)
  have hgain : 0 < ((List.range 14).map fun k =>
      max (prices.getD (prices.length - 1 - k) 0 -
        prices.getD (prices.length - 1 - k - 1) 0) 0).sum := by
    apply List.sum_pos
    · intro x hx
      rw [List.mem_map] at hx
      obtain ⟨k, hk, rfl⟩ := hx
      rw [List.mem_range] at hk
      have h1 : (prices.length - 1 - k - 1) + 1 = prices.length - 1 - k := by omega
      have h2 : (prices.length - 1 - k - 1) + 1 < prices.length := by omega
      have h3 := hmono (prices.length - 1 - k - 1) h2
      rw [h1] at h3
      exact lt_of_lt_of_le (by linarith) (le_max_left _ _)
    · simp
  have hg14 : (0:ℚ) < ((List.range 14).map fun k =>
      max (prices.getD (prices.length - 1 - k) 0 -
        prices.getD (prices.length - 1 - k - 1) 0) 0).sum / ((14:ℕ):ℚ) :=
    div_pos hgain (by norm_num)
  dsimp only
  rw [hloss, zero_div, if_pos rfl, if_neg (ne_of_gt hg14)]

/-- On a pointwise strictly decreasing series, the final RSI value is
exactly 0 (zero average gain, positive average loss). -/
theorem rsiAt_last_of_dec (prices : List ℚ) (hlen : 15 ≤ prices.length)
    (hmono : ∀ j, j + 1 < prices.length → prices.getD (j+1) 0 < prices.getD j 0) :
    rsiAt prices 14 (prices.length - 1) = some 0 := by
  have hi : 14 ≤ prices.length - 1 ∧ prices.length - 1 < prices.length := by omega
  unfold rsiAt rsi_avg_gain rsi_avg_loss
  rw [if_pos hi, if_pos hi]
  have hgain : ((List.range 14).map fun k =>
      max (prices.getD (prices.length - 1 - k) 0 -
        prices.getD (prices.length - 1 - k - 1) 0) 0).sum = 0 := by
    apply List.sum_eq_zero
    intro x hx
    rw [List.mem_map] at hx
    obtain ⟨k, hk, rfl⟩ := hx
    rw [List.mem_range] at hk
    have h1 : (prices.length - 1 - k - 1) + 1 = prices.length - 1 - k := by omega
    have h2 : (prices.length - 1 - k - 1) + 1 < prices.length := by omega
    have h3 := hmono (prices.length - 1 - k - 1) h2
    rw [h1] at h3
    exact max_eq_right (by linarith)
  have hloss : 0 < ((List.range 14).map fun k =>
      max (prices.getD (prices.length - 1 - k - 1) 0 -
        prices.getD (prices.length - 1 - k) 0) 0).sum := by
    apply List.sum_pos
    · intro x hx
      rw [List.mem_map] at hx
      obtain ⟨k, hk, rfl⟩ := hx
      rw [List.mem_range] at hk
      have h1 : (prices.length - 1 - k - 1) + 1 = prices.length - 1 - k := by omega
      have h2 : (prices.length - 1 - k - 1) + 1 < prices.length := by omega
      have h3 := hmono (prices.length - 1 - k - 1) h2
      rw [h1] at h3
      exact lt_of_lt_of_le (by linarith) (le_max_left _ _)
    · simp
  have hl14 : (0:ℚ) < ((List.range 14).map fun k =>
      max (prices.getD (prices.length - 1 - k - 1) 0 -
        prices.getD (prices.length - 1 - k) 0) 0).sum / ((14:ℕ):ℚ) :=
    div_pos hloss (by norm_num)
  dsimp only
  rw [if_neg (ne_of_gt hl14), hgain]
  norm_num

/-- The last entry of the `fallback_rsi` series is `rsiAt` at the last
index. -/
theorem fallback_rsi_last (prices : List ℚ) (h : prices ≠ []) (tp : ℕ) :
    (fallback_rsi prices tp).getLast? = some (rsiAt prices tp (prices.length - 1)) := by
  unfold fallback_rsi
  rw [List.getLast?_eq_getElem?, List.length_map, List.length_range, List.getElem?_map,
    List.getElem?_range (Nat.sub_lt (List.length_pos.2 h) one_pos)]
  rfl

/-- C8: the final 14-period fallback RSI of a strictly monotonically
increasing series of at least 15 samples is exactly 100; of a strictly
decreasing one, exactly 0. -/
theorem c8_rsi_extremes (prices : List ℚ) (hlen : 15 ≤ prices.length) :
    (List.Chain' (· < ·) prices →
      (fallback_rsi prices 14).getLast? = some (some 100)) ∧
    (List.Chain' (· > ·) prices →
      (fallback_rsi prices 14).getLast? = some (some 0)) := by
  have hne : prices ≠ [] := by
    intro h
    rw [h] at hlen
    simp at hlen
  have hget : ∀ (i : ℕ) (h : i < prices.length),
      prices.getD i 0 = prices.get ⟨i, h⟩ := by
    intro i h
    rw [List.getD_eq_getElem _ _ h]
    simp
  constructor
  · intro hc
    rw [fallback_rsi_last prices hne 14, rsiAt_last_of_inc prices hlen ?_]
    intro j hj
    rw [hget j (by omega), hget (j+1) hj]
    exact List.chain'_iff_get.1 hc j (by omega)
  · intro hc
    rw [fallback_rsi_last prices hne 14, rsiAt_last_of_dec prices hlen ?_]
    intro j hj
    rw [hget (j+1) hj, hget j (by omega)]
    exact List.chain'_iff_get.1 hc j (by omega)

/-- Witness for C8: the concrete series `0,…,14` and `14,…,0`. -/
theorem c8_witness :
    (fallback_rsi [0,1,2,3,4,5,6,7,8,9,10,11,12,13,14] 14).getLast? = some (some 100) ∧
    (fallback_rsi [14,13,12,11,10,9,8,7,6,5,4,3,2,1,0] 14).getLast? = some (some 0) :=
  ⟨(c8_rsi_extremes [0,1,2,3,4,5,6,7,8,9,10,11,12,13,14] (by norm_num)).1
      (by norm_num [List.chain'_cons]),
   (c8_rsi_extremes [14,13,12,11,10,9,8,7,6,5,4,3,2,1,0] (by norm_num)).2
      (by norm_num [List.chain'_cons])⟩

/-- C7: every strategy returns the null signal on insufficient history —
fewer than 30 bars for the four single-timeframe strategies, and any
required timeframe missing or shorter than 30 bars for the
multi-timeframe strategy.  (The early-return guards fire before any data
access; in the embedding all functions are total, mirroring that no
exception is raised.) -/
theorem c7_insufficient_history (ohlc : List Candle)
    (dict : List (String × List Candle)) (market : String)
    (trade_types : List String) :
    (ohlc.length < 30 →
      pattern_based_strategy ohlc dict market trade_types = nullSignal ∧
      trend_following_strategy ohlc dict market trade_types = nullSignal ∧
      mean_reversion_strategy ohlc dict market trade_types = nullSignal ∧
      breakout_strategy ohlc dict market trade_types = nullSignal) ∧
    ((∃ tf ∈ required_timeframes, dict.lookup tf = none ∨
        ∃ d, dict.lookup tf = some d ∧ d.length < 30) →
      multi_timeframe_strategy ohlc dict market trade_types = nullSignal) := by
  constructor
  · intro h
    refine ⟨?_, ?_, ?_, ?_⟩
    · simp only [pattern_based_strategy, if_pos h]
    · simp only [trend_following_strategy, if_pos h]
    · simp only [mean_reversion_strategy, if_pos h]
    · simp only [breakout_strategy, if_pos h]
  · rintro ⟨tf, htf, hcase⟩
    have hany : (required_timeframes.any fun tf =>
        match dict.lookup tf with
        | none => true
        | some d => decide (d.length < 30)) = true := by
      rw [List.any_eq_true]
      refine ⟨tf, htf, ?_⟩
      rcases hcase with hnone | ⟨d, hd, hlen⟩
      · rw [hnone]
      · rw [hd]
        exact decide_eq_true hlen
    simp only [multi_timeframe_strategy, hany, if_pos]

/-- Witness for C7: empty data and an empty timeframe dict. -/
theorem c7_witness :
    pattern_based_strategy [] [] "R_100" ["CALL"] = nullSignal ∧
    multi_timeframe_strategy [] [] "R_100" ["CALL"] = nullSignal := by
  have h := c7_insufficient_history [] [] "R_100" ["CALL"]
  exact ⟨(h.1 (by norm_num)).1,
    h.2 ⟨"1m", by simp [required_timeframes], Or.inl rfl⟩⟩

/-- Witness for C6 at a concrete state and trade. -/
theorem c6_witness :
    (record_trade ⟨1000, 1000, 1/2, [], 1, 0, []⟩ ⟨true, 1, "2024-01-01"⟩).loss_streak = 0 :=
  (c6_streaks_mutually_exclusive ⟨1000, 1000, 1/2, [], 1, 0, []⟩
    ⟨true, 1, "2024-01-01"⟩).1.mp (by decide)

theorem mem_range1 {s n m : ℕ} : m ∈ List.range' s n ↔ s ≤ m ∧ m < s + n := by
  rw [List.mem_range']
  constructor
  · rintro ⟨i, hi, rfl⟩
    omega
  · rintro ⟨h1, h2⟩
    exact ⟨m - s, by omega, by omega⟩

theorem foldl_max_lt_iff (xs : List ℚ) (x c : ℚ) :
    xs.foldl max x < c ↔ x < c ∧ ∀ y ∈ xs, y < c := by
  induction xs generalizing x with
  | nil => simp
  | cons y ys ih =>
    simp only [List.foldl_cons, ih, max_lt_iff, List.forall_mem_cons]
    tauto

theorem lt_foldl_min_iff (xs : List ℚ) (x c : ℚ) :
    c < xs.foldl min x ↔ c < x ∧ ∀ y ∈ xs, c < y := by
  induction xs generalizing x with
  | nil => simp
  | cons y ys ih =>
    simp only [List.foldl_cons, ih, lt_min_iff, List.forall_mem_cons]
    tauto

theorem forall_mem_slice_iff (prices : List ℚ) (a w : ℕ)
    (haw : a + w ≤ prices.length) (P : ℚ → Prop) :
    (∀ y ∈ (prices.drop a).take w, P y) ↔
      ∀ j, a ≤ j → j < a + w → P (prices.getD j 0) := by
  constructor
  · intro h j hj1 hj2
    have hlen : j - a < ((prices.drop a).take w).length := by
      simp only [List.length_take, List.length_drop]
      omega
    have hj : j < prices.length := by omega
    have hval : ((prices.drop a).take w)[j - a] = prices.getD j 0 := by
      rw [List.getElem_take, List.getElem_drop, List.getD_eq_getElem _ _ hj]
      congr 1
      omega
    rw [← hval]
    exact h _ (List.mem_iff_getElem.2 ⟨j - a, hlen, rfl⟩)
  · intro h y hy
    obtain ⟨k, hk, rfl⟩ := List.mem_iff_getElem.1 hy
    have hkw : k < w := by
      simp only [List.length_take, List.length_drop] at hk
      omega
    have hval : ((prices.drop a).take w)[k] = prices.getD (a + k) 0 := by
      rw [List.getElem_take, List.getElem_drop, List.getD_eq_getElem _ _ (by omega)]
    rw [hval]
    exact h (a + k) (by omega) (by omega)

/-- Value of one loop iteration of `detect_swing_points` when the window
slices are nonempty (`1 ≤ w`, index in loop range): the swing-high and
swing-low tests, phrased over indices. -/
theorem swingStep_eq (prices : List ℚ) (w i : ℕ) (hw : 1 ≤ w) (hwi : w ≤ i)
    (hiw : i + w < prices.length) :
    swingStep prices w i =
      some (decide ((∀ j < i, i - w ≤ j → prices.getD j 0 < prices.getD i 0) ∧
              (∀ j < i + 1 + w, i + 1 ≤ j → prices.getD j 0 < prices.getD i 0)),
            decide ((∀ j < i, i - w ≤ j → prices.getD i 0 < prices.getD j 0) ∧
              (∀ j < i + 1 + w, i + 1 ≤ j → prices.getD i 0 < prices.getD j 0))) := by
  have hlenL : ((prices.drop (i - w)).take w).length = w := by
    simp only [List.length_take, List.length_drop]
    omega
  have hlenR : ((prices.drop (i + 1)).take w).length = w := by
    simp only [List.length_take, List.length_drop]
    omega
  have hL : i - w + w ≤ prices.length := by omega
  have hR : i + 1 + w ≤ prices.length := by omega
  rcases hLW : (prices.drop (i - w)).take w with _ | ⟨x, xs⟩
  · rw [hLW] at hlenL
    simp at hlenL
    omega
  · rcases hRW : (prices.drop (i + 1)).take w with _ | ⟨y, ys⟩
    · rw [hRW] at hlenR
      simp at hlenR
      omega
    · unfold swingStep
      rw [hLW, hRW]
      have hfL := forall_mem_slice_iff prices (i - w) w hL
      have hfR := forall_mem_slice_iff prices (i + 1) w hR
      rw [hLW] at hfL
      rw [hRW] at hfR
      dsimp only
      congr 1
      congr 1
      · rw [decide_eq_decide]
        rw [foldl_max_lt_iff, foldl_max_lt_iff]
        have hcL : (x < prices.getD i 0 ∧ ∀ y ∈ xs, y < prices.getD i 0) ↔
            ∀ j, i - w ≤ j → j < i - w + w → prices.getD j 0 < prices.getD i 0 :=
          (@List.forall_mem_cons ℚ (fun z => z < prices.getD i 0) x xs).symm.trans (hfL _)
        have hcR : (y < prices.getD i 0 ∧ ∀ z ∈ ys, z < prices.getD i 0) ↔
            ∀ j, i + 1 ≤ j → j < i + 1 + w → prices.getD j 0 < prices.getD i 0 :=
          (@List.forall_mem_cons ℚ (fun z => z < prices.getD i 0) y ys).symm.trans (hfR _)
        rw [hcL, hcR]
        constructor
        · rintro ⟨h1, h2⟩
          exact ⟨fun j hj1 hj2 => h1 j hj2 (by omega),
            fun j hj1 hj2 => h2 j hj2 hj1⟩
        · rintro ⟨h1, h2⟩
          exact ⟨fun j hj1 hj2 => h1 j (by omega) hj1,
            fun j hj1 hj2 => h2 j hj2 hj1⟩
      · rw [decide_eq_decide]
        rw [lt_foldl_min_iff, lt_foldl_min_iff]
        have hcL : (prices.getD i 0 < x ∧ ∀ y ∈ xs, prices.getD i 0 < y) ↔
            ∀ j, i - w ≤ j → j < i - w + w → prices.getD i 0 < prices.getD j 0 :=
          (@List.forall_mem_cons ℚ (fun z => prices.getD i 0 < z) x xs).symm.trans (hfL _)
        have hcR : (prices.getD i 0 < y ∧ ∀ z ∈ ys, prices.getD i 0 < z) ↔
            ∀ j, i + 1 ≤ j → j < i + 1 + w → prices.getD i 0 < prices.getD j 0 :=
          (@List.forall_mem_cons ℚ (fun z => prices.getD i 0 < z) y ys).symm.trans (hfR _)
        rw [hcL, hcR]
        constructor
        · rintro ⟨h1, h2⟩
          exact ⟨fun j hj1 hj2 => h1 j hj2 (by omega),
            fun j hj1 hj2 => h2 j hj2 hj1⟩
        · rintro ⟨h1, h2⟩
          exact ⟨fun j hj1 hj2 => h1 j (by omega) hj1,
            fun j hj1 hj2 => h2 j hj2 hj1⟩

/-- When every iteration succeeds, the swing loop collects exactly the
indices whose step flags are set, in order. -/
theorem swingLoop_eq_filter (prices : List ℚ) (w : ℕ) (idxs : List ℕ)
    (h : ∀ i ∈ idxs, (swingStep prices w i).isSome = true) :
    swingLoop prices w idxs =
      some (idxs.filter (fun i => ((swingStep prices w i).getD (false, false)).1),
            idxs.filter (fun i => ((swingStep prices w i).getD (false, false)).2)) := by
  induction idxs with
  | nil => rfl
  | cons i rest ih =>
    have hi := h i (List.mem_cons_self _ _)
    rcases hstep : swingStep prices w i with _ | ⟨b1, b2⟩
    · rw [hstep] at hi
      simp at hi
    · have hrest := ih fun j hj => h j (List.mem_cons_of_mem _ hj)
      simp only [swingLoop, hstep, hrest, List.filter_cons]
      cases b1 <;> cases b2 <;> simp

theorem filter_beq_range' (p cnt : ℕ) : ∀ a, a ≤ p → p < a + cnt →
    (List.range' a cnt).filter (fun i => i == p) = [p] := by
  induction cnt with
  | zero =>
    intro a h1 h2
    omega
  | succ cnt ih =>
    intro a h1 h2
    rw [List.range'_succ, List.filter_cons]
    by_cases hap : a = p
    · subst hap
      rw [if_pos (by simp)]
      have hnil : (List.range' (a + 1) cnt).filter (fun i => i == a) = [] := by
        rw [List.filter_eq_nil_iff]
        intro b hb
        rw [mem_range1] at hb
        simp only [beq_iff_eq]
        omega
      rw [hnil]
    · rw [if_neg (by simp [hap])]
      exact ih (a + 1) (by omega) (by omega)

/-- C9 (counterexample): with `window = 0` the claim fails — on the
single-peaked symmetric sequence `[1, 2, 1]` with peak `p = 1` the
constraints `w ≤ p` and `w ≤ len − 1 − p` admit `w = 0`, but there
`np.max` is applied to an empty slice and the Python call raises
`ValueError` (modelled as `none`) instead of returning `([1], [])`. -/
theorem c9_counterexample :
    detect_swing_points [1, 2, 1] 0 = none ∧
    detect_swing_points [1, 2, 1] 0 ≠ some ([1], []) := by
  constructor
  · rfl
  · intro h
    cases h

/-- C9 (amended): for `1 ≤ w`, on a strictly-increasing-then-decreasing
sequence that is mirror-symmetric about its peak `p`, with
`w ≤ p` and `w ≤ len − 1 − p`, `detect_swing_points` returns exactly
`[p]` as swing highs and no swing lows. -/
theorem c9_swing_detection (prices : List ℚ) (p w : ℕ)
    (hp : p < prices.length)
    (hinc : ∀ i < p, prices.getD i 0 < prices.getD (i+1) 0)
    (hdec : ∀ j < prices.length - 1 - p,
      prices.getD (p+j+1) 0 < prices.getD (p+j) 0)
    (hsym : ∀ i < prices.length,
      prices.getD (prices.length - 1 - i) 0 = prices.getD i 0)
    (hw : 1 ≤ w) (hwp : w ≤ p) (hwr : w ≤ prices.length - 1 - p) :
    detect_swing_points prices w = some ([p], []) := by
  have hincs : ∀ a b, a < b → b ≤ p → prices.getD a 0 < prices.getD b 0 := by
    intro a b
    induction b with
    | zero =>
      intro h _
      omega
    | succ b ihb =>
      intro hab hbp
      by_cases h : a = b
      · subst h
        exact hinc a (by omega)
      · exact lt_trans (ihb (by omega) (by omega)) (hinc b (by omega))
  have hadj : ∀ j, p ≤ j → j + 1 ≤ prices.length - 1 →
      prices.getD (j+1) 0 < prices.getD j 0 := by
    intro j hj1 hj2
    have h := hdec (j - p) (by omega)
    have e : p + (j - p) = j := by omega
    rw [e] at h
    exact h
  have hdecs : ∀ a b, p ≤ a → a < b → b ≤ prices.length - 1 →
      prices.getD b 0 < prices.getD a 0 := by
    intro a b
    induction b with
    | zero =>
      intro _ h _
      omega
    | succ b ihb =>
      intro hpa hab hbn
      by_cases h : a = b
      · subst h
        exact hadj a (by omega) (by omega)
      · exact lt_trans (hadj b (by omega) (by omega)) (ihb hpa (by omega) (by omega))
  have hguard : ¬ (prices.length < w * 2) := by omega
  unfold detect_swing_points
  rw [if_neg hguard]
  have hbounds : ∀ i ∈ List.range' w (prices.length - 2 * w), w ≤ i ∧ i + w < prices.length := by
    intro i hi
    rw [mem_range1] at hi
    omega
  have hsome : ∀ i ∈ List.range' w (prices.length - 2 * w),
      (swingStep prices w i).isSome = true := by
    intro i hi
    rw [swingStep_eq prices w i hw (hbounds i hi).1 (hbounds i hi).2]
    rfl
  have hhigh : ∀ i ∈ List.range' w (prices.length - 2 * w),
      ((swingStep prices w i).getD (false, false)).1 = (i == p) := by
    intro i hi
    obtain ⟨hi1, hi2⟩ := hbounds i hi
    rw [swingStep_eq prices w i hw hi1 hi2]
    simp only [Option.getD_some]
    rw [Bool.eq_iff_iff, decide_eq_true_eq, beq_iff_eq]
    constructor
    · rintro ⟨hA, hB⟩
      by_contra hne
      rcases Nat.lt_or_ge i p with hlt | hge
      · have h1 := hB (i+1) (by omega) (by omega)
        have h2 := hincs i (i+1) (by omega) (by omega)
        linarith
      · have hgt : p < i := by omega
        have h1 := hA (i-1) (by omega) (by omega)
        have h2 := hdecs (i-1) i (by omega) (by omega) (by omega)
        linarith
    · rintro rfl
      constructor
      · intro j hj1 hj2
        exact hincs j i hj1 le_rfl
      · intro j hj1 hj2
        exact hdecs i j le_rfl (by omega) (by omega)
  have hlow : ∀ i ∈ List.range' w (prices.length - 2 * w),
      ((swingStep prices w i).getD (false, false)).2 = false := by
    intro i hi
    obtain ⟨hi1, hi2⟩ := hbounds i hi
    rw [swingStep_eq prices w i hw hi1 hi2]
    simp only [Option.getD_some]
    rw [decide_eq_false_iff_not]
    rintro ⟨hA, hB⟩
    rcases le_or_lt i p with hle | hgt
    · have h1 := hA (i-1) (by omega) (by omega)
      have h2 := hincs (i-1) i (by omega) hle
      linarith
    · have h1 := hB (i+1) (by omega) (by omega)
      have h2 := hdecs i (i+1) (by omega) (by omega) (by omega)
      linarith
  rw [swingLoop_eq_filter prices w _ hsome]
  rw [List.filter_congr hhigh]
  rw [filter_beq_range' p (prices.length - 2 * w) w hwp (by omega)]
  have hnil : (List.range' w (prices.length - 2 * w)).filter
      (fun i => ((swingStep prices w i).getD (false, false)).2) = [] := by
    rw [List.filter_eq_nil_iff]
    intro i hi
    rw [hlow i hi]
    simp
  rw [hnil]

/-- Witness for the amended C9: the symmetric peak `[1, 2, 3, 2, 1]` with
window 2. -/
theorem c9_witness :
    detect_swing_points [1, 2, 3, 2, 1] 2 = some ([2], []) :=
  c9_swing_detection [1, 2, 3, 2, 1] 2 2 (by norm_num)
    (by decide) (by decide) (by decide)
    (by norm_num) (by norm_num) (by norm_num)

end Wynex
